import Mathlib

/-!
Shallow embedding of `src/compress.py` (audio_augmentation), a
command-construction and batch-orchestration layer over ffmpeg.

Modelling conventions:
* Python strings are Lean `String`s; `str.lower()` is `lowerStr` (per-character
  ASCII lowering, as Python does on ASCII input), `str.endswith` is
  `endsWithStr` (character-suffix test), `os.path.splitext(p)[0]` is
  `splitextRoot` (faithful to `posixpath.splitext`).
* The filesystem is a parameter `fs : String → Bool` (`os.path.exists`),
  and the external tool a parameter `run : List String → Bool` giving the
  subprocess's success (exit status zero) for a given argument vector.
* Optional numeric parameters are `Option Int`; Python truthiness tests
  (`if sample_rate:`) are `truthy`.
* `_single_convert` is split into `single_convert_plan` (fail-fast check,
  output-path resolution and argument-vector assembly, lines 97–156) and
  `single_convert` (the subprocess invocation and result, lines 158–165);
  the outcome records the commands actually passed to the subprocess.
-/

/-- Index of the last occurrence of `c` in `cs` (Python `str.rfind`, with
`none` for Python's `-1`). -/
def lastIndexOfChar (c : Char) (cs : List Char) : Option Nat :=
  (cs.enum.filter (fun p => p.2 == c)).foldl (fun _ p => some p.1) none

/-- `os.path.splitext(p)[0]` for POSIX paths: chop the extension at the last
dot, but only when it lies after the last path separator and the basename has
a non-dot character before it (so `".bashrc"` keeps its name). -/
def splitextRoot (p : String) : String :=
  let cs := p.data
  let sepIndex : Int := match lastIndexOfChar '/' cs with
    | some i => (i : Int)
    | none => -1
  let dotIndex : Int := match lastIndexOfChar '.' cs with
    | some i => (i : Int)
    | none => -1
  if sepIndex < dotIndex then
    let between := (cs.drop (sepIndex + 1).toNat).take (dotIndex - sepIndex - 1).toNat
    if between.any (fun ch => ch != '.') then String.mk (cs.take dotIndex.toNat)
    else p
  else p

/-- Python `str.lower()` restricted to ASCII, which is all the source uses. -/
def lowerStr (s : String) : String := String.mk (s.data.map Char.toLower)

/-- Python `str.endswith(suffix)`: character-level suffix test. -/
def endsWithStr (s suffix : String) : Bool := suffix.data.isSuffixOf s.data

/-- Python `str.startswith(prefix)`: character-level test (used by
`os.path.join`). -/
def startsWithStr (s pre : String) : Bool := pre.data.isPrefixOf s.data

/-- `os.path.join(a, b)` for POSIX paths, as the source uses it. -/
def path_join (a b : String) : String :=
  if startsWithStr b "/" then b
  else if a = "" || endsWithStr a "/" then a ++ b
  else a ++ "/" ++ b

/-- `os.path.basename(p)` for POSIX paths: everything after the last `/`. -/
def basename (p : String) : String :=
  match lastIndexOfChar '/' p.data with
  | some i => String.mk (p.data.drop (i + 1))
  | none => p

/-- Python truthiness of an optional int: `None` and `0` are falsy. -/
def truthy : Option Int → Bool
  | none => false
  | some n => n != 0

/-- The `format_settings` dict built by `_get_format_settings`
(`src/compress.py` lines 45–48). -/
structure FormatSettings where
  codec : List String
  format_args : List String
deriving DecidableEq, Repr

/-- The `bitrates` dict of the `m4a` branch (`src/compress.py` lines 69–72). -/
def bitrates : List (Int × String) :=
  [(0, "384k"), (1, "320k"), (2, "256k"), (3, "224k"), (4, "192k"),
   (5, "160k"), (6, "128k"), (7, "112k"), (8, "96k"), (9, "64k")]

/-- `_get_format_settings(output_format, compression_level)`
(`src/compress.py` lines 43–91). -/
def _get_format_settings (output_format : String) (compression_level : Option Int) :
    FormatSettings :=
  let fmt := lowerStr output_format
  if fmt = "flac" then
    { codec := ["-c:a", "flac"],
      format_args := match compression_level with
        | some cl => ["-compression_level", toString cl]
        | none => [] }
  else if fmt = "mp3" then
    { codec := ["-c:a", "libmp3lame"],
      format_args := match compression_level with
        | some cl => ["-q:a", toString (max 0 (min 9 cl))]
        | none => [] }
  else if fmt = "m4a" then
    { codec := ["-c:a", "aac"],
      format_args := match compression_level with
        | some cl => ["-b:a", (bitrates.lookup cl).getD "128k"]
        | none => [] }
  else if fmt = "wav" then
    { codec := ["-c:a", "pcm_s16le"], format_args := [] }
  else if fmt = "ogg" then
    { codec := ["-c:a", "libvorbis"],
      format_args := match compression_level with
        | some cl => ["-q:a", toString (max 0 (min 9 cl))]
        | none => [] }
  else
    { codec := ["-c:a", "copy"], format_args := [] }

/-- The `format_extensions` dict (`src/compress.py` lines 102–111, repeated
verbatim at lines 185–194). -/
def format_extensions : List (String × String) :=
  [("flac", ".flac"), ("mp3", ".mp3"), ("m4a", ".m4a"), ("wav", ".wav"),
   ("ogg", ".ogg"), ("aac", ".aac"), ("wma", ".wma"), ("alac", ".m4a")]

/-- `format_extensions.get(output_format.lower(), f'.\x7boutput_format\x7d')`
(`src/compress.py` line 113 and line 196): the table is keyed on the lowered
format, the fallback keeps the format string's original case. -/
def outputExtensionFor (output_format : String) : String :=
  (format_extensions.lookup (lowerStr output_format)).getD ("." ++ output_format)

/-- The bit-depth block of `_single_convert` (`src/compress.py` lines
134–149): guarded by truthiness of `bit_depth` and by the lowered format
being `flac` or `wav`. -/
def bitDepthArgs (output_format : String) (bit_depth : Option Int) : List String :=
  if truthy bit_depth && (lowerStr output_format == "flac" || lowerStr output_format == "wav")
  then
    if lowerStr output_format == "flac" then
      if bit_depth = some 16 then ["-sample_fmt", "s16"]
      else if bit_depth = some 24 then ["-sample_fmt", "s32"]
      else if bit_depth = some 32 then ["-sample_fmt", "s32"]
      else []
    else
      if bit_depth = some 16 then ["-c:a", "pcm_s16le"]
      else if bit_depth = some 24 then ["-c:a", "pcm_s24le"]
      else if bit_depth = some 32 then ["-c:a", "pcm_s32le"]
      else []
  else []

/-- The pure part of `_single_convert` (`src/compress.py` lines 94–156):
the fail-fast existence check, output-path resolution and assembly of the
ffmpeg argument vector.  Returns `none` when the input does not exist (line
97–99, before any command is built), otherwise the command and the resolved
output path. -/
def single_convert_plan (fs : String → Bool) (input_file : String)
    (output_format : String) (output_file : Option String)
    (compression_level sample_rate channels bit_depth : Option Int)
    (extra_args : Option (List String)) : Option (List String × String) :=
  if fs input_file then
    let output_extension := outputExtensionFor output_format
    let out := output_file.getD (splitextRoot input_file ++ output_extension)
    let format_settings := _get_format_settings output_format compression_level
    let cmd := ["ffmpeg", "-i", input_file]
      ++ format_settings.codec
      ++ format_settings.format_args
      ++ (if truthy sample_rate then ["-ar", toString (sample_rate.getD 0)] else [])
      ++ (if truthy channels then ["-ac", toString (channels.getD 0)] else [])
      ++ bitDepthArgs output_format bit_depth
      ++ extra_args.getD []
      ++ [out]
    some (cmd, out)
  else none

/-- The observable outcome of `_single_convert`: which argument vectors were
handed to `subprocess.run`, and the returned value (`some` output path on
exit status zero, `None` otherwise). -/
structure SingleOutcome where
  invoked : List (List String)
  result : Option String
deriving DecidableEq, Repr

/-- `_single_convert` (`src/compress.py` lines 94–165): build the plan, run
the subprocess once, return the output path on success and `None` on
failure.  A missing input invokes nothing. -/
def single_convert (fs : String → Bool) (run : List String → Bool)
    (input_file output_format : String) (output_file : Option String)
    (compression_level sample_rate channels bit_depth : Option Int)
    (extra_args : Option (List String)) : SingleOutcome :=
  match single_convert_plan fs input_file output_format output_file
      compression_level sample_rate channels bit_depth extra_args with
  | none => { invoked := [], result := none }
  | some (cmd, out) =>
      { invoked := [cmd], result := if run cmd then some out else none }

/-- The observable outcome of `_batch_convert`: the matched paths actually
handed on to `_single_convert` (in order), and the accumulated list of
successful output paths. -/
structure BatchOutcome where
  converted : List String
  successful : List String
deriving DecidableEq, Repr

/-- The per-file loop of `_batch_convert` (`src/compress.py` lines 198–222):
skip files whose lowered path already ends with the target extension,
compute the per-file output path, delegate to `_single_convert`, and keep
truthy results. -/
def batch_loop (fs : String → Bool) (run : List String → Bool)
    (output_format output_extension : String) (output_dir : Option String)
    (compression_level sample_rate channels bit_depth : Option Int)
    (extra_args : Option (List String)) : List String → BatchOutcome
  | [] => { converted := [], successful := [] }
  | audio_path :: rest =>
    let acc := batch_loop fs run output_format output_extension output_dir
      compression_level sample_rate channels bit_depth extra_args rest
    if endsWithStr (lowerStr audio_path) output_extension then acc
    else
      let output_path := match output_dir with
        | some d => path_join d (splitextRoot (basename audio_path) ++ output_extension)
        | none => splitextRoot audio_path ++ output_extension
      let r := single_convert fs run audio_path output_format (some output_path)
        compression_level sample_rate channels bit_depth extra_args
      { converted := audio_path :: acc.converted,
        successful := (match r.result with
          | some o => if o = "" then [] else [o]
          | none => []) ++ acc.successful }

/-- `_batch_convert` (`src/compress.py` lines 168–225), with the glob result
passed in as the list `audio_files` (paths as strings, in enumeration
order).  An empty match returns an empty result (lines 180–182). -/
def batch_convert (fs : String → Bool) (run : List String → Bool)
    (audio_files : List String) (output_format : String) (output_dir : Option String)
    (compression_level sample_rate channels bit_depth : Option Int)
    (extra_args : Option (List String)) : BatchOutcome :=
  if audio_files.isEmpty then { converted := [], successful := [] }
  else batch_loop fs run output_format (outputExtensionFor output_format) output_dir
    compression_level sample_rate channels bit_depth extra_args audio_files

/-- The canonical extension exactly as the specification words it
(§4.2 step 2): a lookup table flac→.flac, mp3→.mp3, m4a→.m4a, wav→.wav,
ogg→.ogg, aac→.aac, wma→.wma, alac→.m4a — format matching being
case-insensitive per §4.1 — with unrecognized formats falling back to
`.\x7bformat\x7d`. -/
def specCanonicalExtension (fmt : String) : String :=
  if lowerStr fmt = "flac" then ".flac"
  else if lowerStr fmt = "mp3" then ".mp3"
  else if lowerStr fmt = "m4a" then ".m4a"
  else if lowerStr fmt = "wav" then ".wav"
  else if lowerStr fmt = "ogg" then ".ogg"
  else if lowerStr fmt = "aac" then ".aac"
  else if lowerStr fmt = "wma" then ".wma"
  else if lowerStr fmt = "alac" then ".m4a"
  else "." ++ fmt

/-- The m4a bitrate table exactly as the specification words it (§4.1):
\x7b0:384k,1:320k,2:256k,3:224k,4:192k,5:160k,6:128k,7:112k,8:96k,9:64k\x7d,
with levels outside the table defaulting to 128k. -/
def specBitrateTable (c : Int) : String :=
  if c = 0 then "384k"
  else if c = 1 then "320k"
  else if c = 2 then "256k"
  else if c = 3 then "224k"
  else if c = 4 then "192k"
  else if c = 5 then "160k"
  else if c = 6 then "128k"
  else if c = 7 then "112k"
  else if c = 8 then "96k"
  else if c = 9 then "64k"
  else "128k"

/-- The code's extension table agrees with the specification's canonical
extension for every format string. -/
theorem outputExtensionFor_eq_spec (fmt : String) :
    outputExtensionFor fmt = specCanonicalExtension fmt := by
  unfold outputExtensionFor specCanonicalExtension format_extensions
  by_cases h1 : lowerStr fmt = "flac"
  · simp [List.lookup, h1]
  by_cases h2 : lowerStr fmt = "mp3"
  · simp [List.lookup, h1, h2]
  by_cases h3 : lowerStr fmt = "m4a"
  · simp [List.lookup, h1, h2, h3]
  by_cases h4 : lowerStr fmt = "wav"
  · simp [List.lookup, h1, h2, h3, h4]
  by_cases h5 : lowerStr fmt = "ogg"
  · simp [List.lookup, h1, h2, h3, h4, h5]
  by_cases h6 : lowerStr fmt = "aac"
  · simp [List.lookup, h1, h2, h3, h4, h5, h6]
  by_cases h7 : lowerStr fmt = "wma"
  · simp [List.lookup, h1, h2, h3, h4, h5, h6, h7]
  by_cases h8 : lowerStr fmt = "alac"
  · simp [List.lookup, h1, h2, h3, h4, h5, h6, h7, h8]
  · simp [List.lookup, h1, h2, h3, h4, h5, h6, h7, h8,
      beq_eq_false_iff_ne.mpr h1, beq_eq_false_iff_ne.mpr h2,
      beq_eq_false_iff_ne.mpr h3, beq_eq_false_iff_ne.mpr h4,
      beq_eq_false_iff_ne.mpr h5, beq_eq_false_iff_ne.mpr h6,
      beq_eq_false_iff_ne.mpr h7, beq_eq_false_iff_ne.mpr h8]

/-- Sanity: the batch converter over `a.wav` and `b.flac` with format flac
converts exactly `a.wav`, producing `a.flac` (spec §8). -/
theorem batch_sanity_flac :
    (batch_convert (fun _ => true) (fun _ => true) ["a.wav", "b.flac"] "flac" none
      (some 5) none none none none).converted = ["a.wav"] ∧
    (batch_convert (fun _ => true) (fun _ => true) ["a.wav", "b.flac"] "flac" none
      (some 5) none none none none).successful = ["a.flac"] := by decide

/-- C1: with no explicit output path, `_single_convert` derives the output
path from the input path by replacing its extension (in the
`os.path.splitext` sense) with the canonical extension for the requested
format — the table flac→.flac, mp3→.mp3, m4a→.m4a, wav→.wav, ogg→.ogg,
aac→.aac, wma→.wma, alac→.m4a, any other format falling back to
`.\x7bformat\x7d`. -/
theorem c1_default_output_path (fs : String → Bool) (input fmt : String)
    (cl sr ch bd : Option Int) (ea : Option (List String))
    (h : fs input = true) :
    (single_convert_plan fs input fmt none cl sr ch bd ea).map Prod.snd
      = some (splitextRoot input ++ specCanonicalExtension fmt) := by
  simp [single_convert_plan, h, outputExtensionFor_eq_spec]

/-- C1 witness: input `song.wav` with format `flac` resolves to `song.flac`
(extension replaced, not appended). -/
theorem c1_default_output_path_witness :
    (single_convert_plan (fun _ => true) "song.wav" "flac" none (some 5) none none none
      none).map Prod.snd = some "song.flac" :=
  (c1_default_output_path (fun _ => true) "song.wav" "flac" (some 5) none none none none
    rfl).trans (by decide)

/-- C2: the argument vector `_single_convert` assembles is exactly
`[tool, "-i", input, codec args, format args, sample-rate args, channel
args, bit-depth override args, extra args verbatim, outputPath]`, with the
output path as the final element.  Sample rate and channel count, when
given, are positive per the data model (§3), so "given" coincides with the
code's truthiness test. -/
theorem c2_cmd_vector_order (fs : String → Bool) (input fmt : String)
    (outp : Option String) (cl sr ch bd : Option Int) (ea : Option (List String))
    (hin : fs input = true)
    (hsr : sr = none ∨ ∃ r : Int, 0 < r ∧ sr = some r)
    (hch : ch = none ∨ ∃ k : Int, 0 < k ∧ ch = some k) :
    ∃ out : String,
      single_convert_plan fs input fmt outp cl sr ch bd ea =
        some (["ffmpeg", "-i", input]
          ++ (_get_format_settings fmt cl).codec
          ++ (_get_format_settings fmt cl).format_args
          ++ (match sr with | none => [] | some r => ["-ar", toString r])
          ++ (match ch with | none => [] | some k => ["-ac", toString k])
          ++ bitDepthArgs fmt bd
          ++ ea.getD []
          ++ [out], out) := by
  refine ⟨outp.getD (splitextRoot input ++ outputExtensionFor fmt), ?_⟩
  rcases hsr with rfl | ⟨r, hr, rfl⟩ <;> rcases hch with rfl | ⟨k, hk, rfl⟩
  · simp [single_convert_plan, hin, truthy]
  · simp [single_convert_plan, hin, truthy, hk.ne']
  · simp [single_convert_plan, hin, truthy, hr.ne']
  · simp [single_convert_plan, hin, truthy, hr.ne', hk.ne']

/-- C2 witness: a concrete invocation with positive sample rate and channel
count produces the advertised vector shape. -/
theorem c2_cmd_vector_order_witness :
    ∃ out : String,
      single_convert_plan (fun _ => true) "a.wav" "mp3" none (some 5) (some 44100) (some 2)
          none none =
        some (["ffmpeg", "-i", "a.wav"]
          ++ (_get_format_settings "mp3" (some 5)).codec
          ++ (_get_format_settings "mp3" (some 5)).format_args
          ++ (match (some (44100 : Int)) with | none => [] | some r => ["-ar", toString r])
          ++ (match (some (2 : Int)) with | none => [] | some k => ["-ac", toString k])
          ++ bitDepthArgs "mp3" none
          ++ (none : Option (List String)).getD []
          ++ [out], out) :=
  c2_cmd_vector_order (fun _ => true) "a.wav" "mp3" none (some 5) (some 44100) (some 2)
    none none rfl (Or.inr ⟨44100, by decide, rfl⟩) (Or.inr ⟨2, by decide, rfl⟩)

/-- C4: when the input path does not exist, `_single_convert` returns the
failure signal immediately and never hands a command to the subprocess. -/
theorem c4_missing_input_fail_fast (fs : String → Bool) (run : List String → Bool)
    (input fmt : String) (outp : Option String) (cl sr ch bd : Option Int)
    (ea : Option (List String)) (h : fs input = false) :
    single_convert fs run input fmt outp cl sr ch bd ea =
      { invoked := [], result := none } := by
  simp [single_convert, single_convert_plan, h]

/-- C4 witness: a concrete missing input yields no invocation and a `None`
result. -/
theorem c4_missing_input_fail_fast_witness :
    single_convert (fun _ => false) (fun _ => true) "missing.wav" "flac" none (some 5)
      none none none none = { invoked := [], result := none } :=
  c4_missing_input_fail_fast (fun _ => false) (fun _ => true) "missing.wav" "flac" none
    (some 5) none none none none rfl

/-- C5: for mp3 and ogg, the quality argument carries the compression level
clamped to [0,9], and a level already within [0,9] is emitted unchanged. -/
theorem c5_mp3_ogg_clamp (fmt : String) (c : Int) (h : fmt = "mp3" ∨ fmt = "ogg") :
    (_get_format_settings fmt (some c)).format_args = ["-q:a", toString (max 0 (min 9 c))] ∧
    (0 ≤ c → c ≤ 9 →
      (_get_format_settings fmt (some c)).format_args = ["-q:a", toString c]) := by
  have key : (_get_format_settings fmt (some c)).format_args
      = ["-q:a", toString (max 0 (min 9 c))] := by
    rcases h with rfl | rfl <;> rfl
  refine ⟨key, fun h0 h9 => ?_⟩
  rw [key, min_eq_right h9, max_eq_right h0]

/-- C5 witness: mp3 level 15 is clamped to 9; ogg level 7 is emitted
unchanged. -/
theorem c5_mp3_ogg_clamp_witness :
    (_get_format_settings "mp3" (some 15)).format_args = ["-q:a", "9"] ∧
    (_get_format_settings "ogg" (some 7)).format_args = ["-q:a", "7"] :=
  ⟨((c5_mp3_ogg_clamp "mp3" 15 (Or.inl rfl)).1).trans (by decide),
   ((c5_mp3_ogg_clamp "ogg" 7 (Or.inr rfl)).2 (by decide) (by decide)).trans (by decide)⟩

/-- C6: for m4a the bitrate argument is determined by the fixed table
\x7b0:384k,…,9:64k\x7d, and a level outside the table (such as 12) yields
`128k`. -/
theorem c6_m4a_bitrate_table (c : Int) :
    (_get_format_settings "m4a" (some c)).format_args = ["-b:a", specBitrateTable c] ∧
    (_get_format_settings "m4a" (some 12)).format_args = ["-b:a", "128k"] := by
  refine ⟨?_, by decide⟩
  have key : (_get_format_settings "m4a" (some c)).format_args
      = ["-b:a", (bitrates.lookup c).getD "128k"] := rfl
  rw [key]
  by_cases h0 : c = 0
  · subst h0; decide
  by_cases h1 : c = 1
  · subst h1; decide
  by_cases h2 : c = 2
  · subst h2; decide
  by_cases h3 : c = 3
  · subst h3; decide
  by_cases h4 : c = 4
  · subst h4; decide
  by_cases h5 : c = 5
  · subst h5; decide
  by_cases h6 : c = 6
  · subst h6; decide
  by_cases h7 : c = 7
  · subst h7; decide
  by_cases h8 : c = 8
  · subst h8; decide
  by_cases h9 : c = 9
  · subst h9; decide
  · simp [bitrates, List.lookup, specBitrateTable, h0, h1, h2, h3, h4, h5, h6, h7, h8, h9,
      beq_eq_false_iff_ne.mpr h0, beq_eq_false_iff_ne.mpr h1, beq_eq_false_iff_ne.mpr h2,
      beq_eq_false_iff_ne.mpr h3, beq_eq_false_iff_ne.mpr h4, beq_eq_false_iff_ne.mpr h5,
      beq_eq_false_iff_ne.mpr h6, beq_eq_false_iff_ne.mpr h7, beq_eq_false_iff_ne.mpr h8,
      beq_eq_false_iff_ne.mpr h9]

/-- C7: for flac the compression-level argument carries the raw integer
unchanged, with no clamping, whatever the level. -/
theorem c7_flac_raw_level (c : Int) :
    (_get_format_settings "flac" (some c)).format_args
      = ["-compression_level", toString c] := rfl

/-- C8: a format whose lowering is none of flac, mp3, m4a, wav, ogg
resolves, without error, to the pass-through codec `copy` with no
format-specific arguments, regardless of the compression level. -/
theorem c8_unknown_format_copy (fmt : String) (cl : Option Int)
    (h : lowerStr fmt ≠ "flac" ∧ lowerStr fmt ≠ "mp3" ∧ lowerStr fmt ≠ "m4a" ∧
      lowerStr fmt ≠ "wav" ∧ lowerStr fmt ≠ "ogg") :
    _get_format_settings fmt cl = { codec := ["-c:a", "copy"], format_args := [] } := by
  obtain ⟨h1, h2, h3, h4, h5⟩ := h
  simp [_get_format_settings, h1, h2, h3, h4, h5]

/-- C8 witness: format `AIFF` with a compression level degrades to the copy
codec. -/
theorem c8_unknown_format_copy_witness :
    _get_format_settings "AIFF" (some 3) = { codec := ["-c:a", "copy"], format_args := [] } :=
  c8_unknown_format_copy "AIFF" (some 3) ⟨by decide, by decide, by decide, by decide, by decide⟩

/-- C9: `_single_convert` emits identical plans for flac at bit depth 24 and
at bit depth 32 (both select the 32-bit sample format), flac at 16 selects
the 16-bit sample format, and for wav the bit depths 16/24/32 select
`pcm_s16le`/`pcm_s24le`/`pcm_s32le` respectively. -/
theorem c9_bit_depth_mapping :
    (∀ (fs : String → Bool) (input : String) (outp : Option String)
        (cl sr ch : Option Int) (ea : Option (List String)),
      single_convert_plan fs input "flac" outp cl sr ch (some 24) ea =
      single_convert_plan fs input "flac" outp cl sr ch (some 32) ea) ∧
    bitDepthArgs "flac" (some 16) = ["-sample_fmt", "s16"] ∧
    bitDepthArgs "flac" (some 24) = ["-sample_fmt", "s32"] ∧
    bitDepthArgs "flac" (some 32) = ["-sample_fmt", "s32"] ∧
    bitDepthArgs "wav" (some 16) = ["-c:a", "pcm_s16le"] ∧
    bitDepthArgs "wav" (some 24) = ["-c:a", "pcm_s24le"] ∧
    bitDepthArgs "wav" (some 32) = ["-c:a", "pcm_s32le"] := by
  refine ⟨fun fs input outp cl sr ch ea => ?_, by decide, by decide, by decide,
    by decide, by decide, by decide⟩
  have h : bitDepthArgs "flac" (some 24) = bitDepthArgs "flac" (some 32) := by decide
  unfold single_convert_plan
  rw [h]

/-- C10: the optional numeric options are tested for truthiness, not for
`None`: a zero sample rate or zero channel count behaves exactly like an
absent one, and a zero bit depth — or any bit depth outside
\x7b16, 24, 32\x7d — contributes no bit-depth argument for any format,
without error. -/
theorem c10_truthiness_zero_options :
    (∀ (fs : String → Bool) (input fmt : String) (outp : Option String)
        (cl ch bd : Option Int) (ea : Option (List String)),
      single_convert_plan fs input fmt outp cl (some 0) ch bd ea =
      single_convert_plan fs input fmt outp cl none ch bd ea) ∧
    (∀ (fs : String → Bool) (input fmt : String) (outp : Option String)
        (cl sr bd : Option Int) (ea : Option (List String)),
      single_convert_plan fs input fmt outp cl sr (some 0) bd ea =
      single_convert_plan fs input fmt outp cl sr none bd ea) ∧
    (∀ (fmt : String) (bd : Int), (bd = 0 ∨ (bd ≠ 16 ∧ bd ≠ 24 ∧ bd ≠ 32)) →
      bitDepthArgs fmt (some bd) = []) := by
  refine ⟨fun fs input fmt outp cl ch bd ea => ?_,
    fun fs input fmt outp cl sr bd ea => ?_, fun fmt bd h => ?_⟩
  · simp [single_convert_plan, truthy]
  · simp [single_convert_plan, truthy]
  · rcases h with rfl | ⟨h16, h24, h32⟩
    · simp [bitDepthArgs, truthy]
    · simp [bitDepthArgs, h16, h24, h32]

/-- C10 witness: a zero sample rate leaves the plan unchanged, and bit depth
17 with format flac contributes no bit-depth argument. -/
theorem c10_truthiness_zero_options_witness :
    single_convert_plan (fun _ => true) "in.wav" "flac" none (some 5) (some 0) none none
        none =
      single_convert_plan (fun _ => true) "in.wav" "flac" none (some 5) none none none
        none ∧
    bitDepthArgs "flac" (some 17) = [] :=
  ⟨c10_truthiness_zero_options.1 (fun _ => true) "in.wav" "flac" none (some 5) none none
      none,
   c10_truthiness_zero_options.2.2 "flac" 17 (Or.inr ⟨by decide, by decide, by decide⟩)⟩

/-- C3 counterexample: with output format `MKV` the derived extension is
`.MKV` (the fallback keeps the format's case), and the skip test lowers only
the file name, so `a.mkv` — which does end with `.MKV` case-insensitively —
is not skipped but handed to the single-file converter. -/
theorem c3_skip_counterexample :
    endsWithStr (lowerStr "a.mkv") (lowerStr (outputExtensionFor "MKV")) = true ∧
    (batch_convert (fun _ => true) (fun _ => true) ["a.mkv"] "MKV" none (some 5)
      none none none none).converted = ["a.mkv"] := by decide

/-- C3 (amended): in batch mode a matched file whose name already ends with
the target format's canonical extension, compared case-insensitively, is
skipped and never passed to the single-file converter — provided that
extension is itself lowercase, which holds for every format in the extension
table; for an unrecognized format the fallback extension keeps the format
string's case while only the file name is lowered, so the comparison is not
case-insensitive on the extension side. -/
theorem c3_skip_target_extension (fs : String → Bool) (run : List String → Bool)
    (files : List String) (fmt : String) (outd : Option String)
    (cl sr ch bd : Option Int) (ea : Option (List String)) (f : String)
    (hext : lowerStr (outputExtensionFor fmt) = outputExtensionFor fmt)
    (hf : endsWithStr (lowerStr f) (lowerStr (outputExtensionFor fmt)) = true) :
    f ∉ (batch_convert fs run files fmt outd cl sr ch bd ea).converted := by
  have key : ∀ l : List String,
      f ∉ (batch_loop fs run fmt (outputExtensionFor fmt) outd cl sr ch bd ea l).converted := by
    intro l
    induction l with
    | nil => simp [batch_loop]
    | cons p rest ih =>
      by_cases hp : endsWithStr (lowerStr p) (outputExtensionFor fmt) = true
      · simpa [batch_loop, hp] using ih
      · intro hmem
        have hmem' : f = p ∨
            f ∈ (batch_loop fs run fmt (outputExtensionFor fmt) outd cl sr ch bd ea
              rest).converted := by
          simpa [batch_loop, hp] using hmem
        rcases hmem' with rfl | hmem'
        · exact hp (hext ▸ hf)
        · exact ih hmem'
  unfold batch_convert
  split
  · simp
  · exact key files

/-- C3 witness: converting a directory containing `b.flac` to flac skips
`b.flac`; it is never passed on. -/
theorem c3_skip_target_extension_witness :
    "b.flac" ∉ (batch_convert (fun _ => true) (fun _ => true) ["a.wav", "b.flac"] "flac"
      none (some 5) none none none none).converted :=
  c3_skip_target_extension (fun _ => true) (fun _ => true) ["a.wav", "b.flac"] "flac"
    none (some 5) none none none none "b.flac" (by decide) (by decide)
